import Mathlib

/-!
Shallow embedding of the task controller of the task-management backend
(`backend/src/controllers/task.controller.ts`) and proofs about its
permission evaluator, query-filter pipeline and update/remove handlers.

Conventions of the embedding:
* A JS object reference to a user is reduced to the record fields the
  controller reads (`id`).
* The persistence layer (TypeORM repository) is modelled as an explicit
  list of tasks and users carried through each handler; `findOne` becomes
  `List.find?`, `findBy (id In ids)` becomes a filter by id membership,
  `save` replaces the entity with the same id, `remove` drops it.
* JS `undefined` for an optional body/query field is `Option.none`; a JS
  truthiness test on a string is a test against `""`; a JS truthiness
  test on an array value is always true (arrays are truthy objects).
* `page` and `limit` arrive in the source through `parseInt` on query
  strings; the claims only concern positive integral values, so the model
  takes them as `Nat`.
-/

structure UserRef where
  id : String
deriving DecidableEq, Repr

namespace Entities

structure Task where
  id : String
  title : String
  description : String
  status : String
  owner : UserRef
  assignees : List UserRef
  createdAt : Nat
deriving DecidableEq, Repr

end Entities

open Entities (Task)

/-- The authenticated-actor context (`AuthTokenPayload` in `utils/auth`):
`{ userId, roles: string[] }`. -/
structure AuthTokenPayload where
  userId : String
  roles : List String
deriving DecidableEq, Repr

namespace TaskController

/-- `user.roles.includes(role)` -/
def hasRole (user : AuthTokenPayload) (role : String) : Bool :=
  user.roles.contains role

/-- `task.owner.id === user.userId` -/
def isOwner (user : AuthTokenPayload) (task : Task) : Bool :=
  task.owner.id == user.userId

/-- `canEditTask`: admins and managers may edit any task; otherwise only
the owner may. -/
def canEditTask (user : AuthTokenPayload) (task : Task) : Bool :=
  if hasRole user "admin" || hasRole user "manager" then
    true
  else
    isOwner user task

/-- `canDeleteTask`: admins may delete any task; managers and regular
users may delete only their own tasks; anyone else may not delete. -/
def canDeleteTask (user : AuthTokenPayload) (task : Task) : Bool :=
  if hasRole user "admin" then
    true
  else if hasRole user "manager" || hasRole user "user" then
    isOwner user task
  else
    false

end TaskController

/-- Shared characterisation of `canEditTask` as a proposition. -/
theorem canEditTask_iff (u : AuthTokenPayload) (t : Task) :
    TaskController.canEditTask u t = true ↔
      ("admin" ∈ u.roles ∨ "manager" ∈ u.roles) ∨ t.owner.id = u.userId := by
  simp [TaskController.canEditTask, TaskController.hasRole, TaskController.isOwner]

/-- Shared characterisation of `canDeleteTask` as a proposition. -/
theorem canDeleteTask_iff (u : AuthTokenPayload) (t : Task) :
    TaskController.canDeleteTask u t = true ↔
      "admin" ∈ u.roles ∨
        (("manager" ∈ u.roles ∨ "user" ∈ u.roles) ∧ t.owner.id = u.userId) := by
  simp [TaskController.canDeleteTask, TaskController.hasRole, TaskController.isOwner]

/-- C1: `canEdit` returns true iff the actor holds `admin` or `manager`,
or else owns the task. -/
theorem canEditTask_spec (u : AuthTokenPayload) (t : Task) :
    TaskController.canEditTask u t = true ↔
      ("admin" ∈ u.roles ∨ "manager" ∈ u.roles) ∨ t.owner.id = u.userId :=
  canEditTask_iff u t

/-- C2: `canDelete` returns true iff the actor holds `admin`, or else
holds `manager` or `user` and owns the task. -/
theorem canDeleteTask_spec (u : AuthTokenPayload) (t : Task) :
    TaskController.canDeleteTask u t = true ↔
      "admin" ∈ u.roles ∨
        (("manager" ∈ u.roles ∨ "user" ∈ u.roles) ∧ t.owner.id = u.userId) :=
  canDeleteTask_iff u t

/-- C7: delete permission is at most edit permission, and strictly more
restrictive for non-admins: whenever `canDelete` is true so is `canEdit`,
and a manager who is not an admin can edit a non-owned task but not
delete it. -/
theorem canDelete_le_canEdit :
    (∀ (u : AuthTokenPayload) (t : Task),
        TaskController.canDeleteTask u t = true → TaskController.canEditTask u t = true) ∧
    (∀ (u : AuthTokenPayload) (t : Task),
        "manager" ∈ u.roles → "admin" ∉ u.roles → t.owner.id ≠ u.userId →
          TaskController.canEditTask u t = true ∧
          TaskController.canDeleteTask u t = false) := by
  constructor
  · intro u t hd
    rw [canDeleteTask_iff] at hd
    rw [canEditTask_iff]
    tauto
  · intro u t hm ha hown
    constructor
    · rw [canEditTask_iff]; tauto
    · cases hd : TaskController.canDeleteTask u t with
      | false => rfl
      | true =>
        rw [canDeleteTask_iff] at hd
        tauto

/-- C7 witness: a pure manager can delete their own task (hence edit it),
and can edit but not delete a task owned by someone else. -/
theorem canDelete_le_canEdit_witness :
    (TaskController.canDeleteTask ⟨"m", ["manager"]⟩
        ⟨"t1", "A", "B", "todo", ⟨"m"⟩, [], 0⟩ = true →
      TaskController.canEditTask ⟨"m", ["manager"]⟩
        ⟨"t1", "A", "B", "todo", ⟨"m"⟩, [], 0⟩ = true) ∧
    (TaskController.canEditTask ⟨"m", ["manager"]⟩
        ⟨"t2", "A", "B", "todo", ⟨"b"⟩, [], 0⟩ = true ∧
      TaskController.canDeleteTask ⟨"m", ["manager"]⟩
        ⟨"t2", "A", "B", "todo", ⟨"b"⟩, [], 0⟩ = false) :=
  ⟨canDelete_le_canEdit.1 ⟨"m", ["manager"]⟩ ⟨"t1", "A", "B", "todo", ⟨"m"⟩, [], 0⟩,
   canDelete_le_canEdit.2 ⟨"m", ["manager"]⟩ ⟨"t2", "A", "B", "todo", ⟨"b"⟩, [], 0⟩
     (by decide) (by decide) (by decide)⟩

/-- C9: an actor holding none of the three known roles can still edit
exactly the tasks they own, but can never delete any task. -/
theorem roleless_actor_edits_owned_deletes_nothing (u : AuthTokenPayload) (t : Task)
    (ha : "admin" ∉ u.roles) (hm : "manager" ∉ u.roles) (hu : "user" ∉ u.roles) :
    (TaskController.canEditTask u t = true ↔ t.owner.id = u.userId) ∧
    TaskController.canDeleteTask u t = false := by
  constructor
  · rw [canEditTask_iff]; tauto
  · cases hd : TaskController.canDeleteTask u t with
    | false => rfl
    | true => rw [canDeleteTask_iff] at hd; tauto

/-- C9 witness: an actor with only the unknown role `guest` can edit
their own task but not delete it. -/
theorem roleless_actor_witness :
    (TaskController.canEditTask ⟨"g", ["guest"]⟩
        ⟨"t1", "A", "B", "todo", ⟨"g"⟩, [], 0⟩ = true ↔
      (⟨"t1", "A", "B", "todo", ⟨"g"⟩, [], 0⟩ : Task).owner.id = "g") ∧
    TaskController.canDeleteTask ⟨"g", ["guest"]⟩
      ⟨"t1", "A", "B", "todo", ⟨"g"⟩, [], 0⟩ = false :=
  roleless_actor_edits_owned_deletes_nothing ⟨"g", ["guest"]⟩
    ⟨"t1", "A", "B", "todo", ⟨"g"⟩, [], 0⟩ (by decide) (by decide) (by decide)

/-! ### The list endpoint (`TaskController.list`)

The SQL fragments built by the query builder are given their relational
meaning over the task list: `LIKE` with percent wildcards around the
term is substring containment,
`status IN (...)` is membership, `assignees.id = :assigneeId` is
membership of the id in the assignee set of the task, `orderBy` is a
deterministic sort by the chosen key, `skip`/`take` are drop/take and
`getManyAndCount` also returns the number of rows matching the filters
before pagination. -/

/-- Substring search over character lists: `needle` occurs contiguously
in `hay`. -/
def charsContain (hay needle : List Char) : Bool :=
  match hay with
  | [] => needle.isEmpty
  | _ :: rest => needle.isPrefixOf hay || charsContain rest needle

/-- `needle` occurs as a contiguous substring of `hay`
(the meaning of matching `hay` against `needle` between wildcards). -/
def likeContains (hay needle : String) : Bool :=
  charsContain hay.data needle.data

/-- The ternary selecting the sort column: `task.title` when `sortBy`
is `title`, `task.createdAt` otherwise. -/
def sortFieldOf (sortKey : String) : String :=
  if sortKey = "title" then "task.title" else "task.createdAt"

/-- The ternary selecting the sort direction: `ASC` when `sortOrder` is
`ASC`, `DESC` otherwise. -/
def orderDir (sortOrder : String) : String :=
  if sortOrder = "ASC" then "ASC" else "DESC"

/-- Ascending comparison on the selected sort column. -/
def keyLe (sortField : String) (a b : Task) : Bool :=
  if sortField = "task.title" then decide (a.title ≤ b.title)
  else decide (a.createdAt ≤ b.createdAt)

/-- The row order requested from the database: the key order itself for
`ASC`, its reverse for `DESC`. -/
def taskLe (sortField ord : String) (a b : Task) : Bool :=
  if ord = "ASC" then keyLe sortField a b else keyLe sortField b a

/-- Insertion into a sorted run (one step of the deterministic model of
the model of the database `ORDER BY`). -/
def insertTask (le : Task → Task → Bool) (x : Task) : List Task → List Task
  | [] => [x]
  | y :: ys => if le x y then x :: y :: ys else y :: insertTask le x ys

/-- Deterministic model of the database `ORDER BY`: insertion sort with
respect to `le`. -/
def orderTasks (le : Task → Task → Bool) : List Task → List Task
  | [] => []
  | x :: xs => insertTask le x (orderTasks le xs)

/-- The query parameters read by `list` (after parsing; `search` empty
means absent, `none` means the query key was absent). -/
structure ListParams where
  search : String
  status : Option (List String)
  assigneeId : Option String
  page : Nat
  limit : Nat
  sortBy : String
  sortOrder : String
deriving DecidableEq, Repr

/-- The JSON payload produced by `list`: the page of tasks plus the
pagination block. -/
structure ListResult where
  tasks : List Task
  page : Nat
  limit : Nat
  total : Nat
  totalPages : Nat
deriving DecidableEq, Repr

/-- The `search` branch of `list`: `WHERE title LIKE %s% OR description
LIKE %s%`, then `andWhere` clauses for status and assignee. -/
def filteredWithSearch (db : List Task) (p : ListParams) : List Task :=
  let f1 := db.filter fun t =>
    likeContains t.title p.search || likeContains t.description p.search
  let f2 := match p.status with
    | some statuses => f1.filter fun t => statuses.contains t.status
    | none => f1
  match p.assigneeId with
  | some aid => f2.filter fun t => t.assignees.any fun u => u.id == aid
  | none => f2

/-- The no-`search` branch of `list`: optional status `WHERE` clause and
optional assignee `andWhere` clause. -/
def filteredNoSearch (db : List Task) (p : ListParams) : List Task :=
  let f1 := match p.status with
    | some statuses => db.filter fun t => statuses.contains t.status
    | none => db
  match p.assigneeId with
  | some aid => f1.filter fun t => t.assignees.any fun u => u.id == aid
  | none => f1

namespace TaskController

/-- The `list` handler: branch on `search` truthiness, filter, sort by
the selected field and direction, then `skip((page-1)*limit).take(limit)`
with `getManyAndCount`; `totalPages = Math.ceil(total / limit)`. -/
def list (db : List Task) (p : ListParams) : ListResult :=
  let offset := (p.page - 1) * p.limit
  let le := taskLe (sortFieldOf p.sortBy) (orderDir p.sortOrder)
  let matched := if p.search ≠ "" then filteredWithSearch db p else filteredNoSearch db p
  let sorted := orderTasks le matched
  { tasks := (sorted.drop offset).take p.limit
    page := p.page
    limit := p.limit
    total := matched.length
    totalPages := (matched.length + p.limit - 1) / p.limit }

end TaskController

theorem mem_insertTask (le : Task → Task → Bool) (x a : Task) (l : List Task) :
    a ∈ insertTask le x l ↔ a = x ∨ a ∈ l := by
  induction l with
  | nil => simp [insertTask]
  | cons y ys ih =>
    by_cases h : le x y = true
    · simp [insertTask, h]
    · simp only [insertTask, if_neg h, List.mem_cons, ih]
      tauto

theorem mem_orderTasks (le : Task → Task → Bool) (a : Task) (l : List Task) :
    a ∈ orderTasks le l ↔ a ∈ l := by
  induction l with
  | nil => simp [orderTasks]
  | cons y ys ih => simp [orderTasks, mem_insertTask, ih]

theorem length_insertTask (le : Task → Task → Bool) (x : Task) (l : List Task) :
    (insertTask le x l).length = l.length + 1 := by
  induction l with
  | nil => simp [insertTask]
  | cons y ys ih =>
    by_cases h : le x y = true
    · simp [insertTask, h]
    · simp [insertTask, if_neg h, ih]

theorem length_orderTasks (le : Task → Task → Bool) (l : List Task) :
    (orderTasks le l).length = l.length := by
  induction l with
  | nil => rfl
  | cons y ys ih => simp [orderTasks, length_insertTask, ih]

theorem mem_filteredWithSearch (db : List Task) (p : ListParams) (t : Task)
    (ht : t ∈ filteredWithSearch db p) :
    (likeContains t.title p.search || likeContains t.description p.search) = true ∧
    (∀ statuses, p.status = some statuses → t.status ∈ statuses) ∧
    (∀ aid, p.assigneeId = some aid → ∃ u ∈ t.assignees, u.id = aid) := by
  cases hs : p.status <;> cases ha : p.assigneeId <;>
    simp [filteredWithSearch, hs, ha, List.mem_filter] at ht <;>
    simp_all

theorem mem_filteredNoSearch (db : List Task) (p : ListParams) (t : Task)
    (ht : t ∈ filteredNoSearch db p) :
    (∀ statuses, p.status = some statuses → t.status ∈ statuses) ∧
    (∀ aid, p.assigneeId = some aid → ∃ u ∈ t.assignees, u.id = aid) := by
  cases hs : p.status <;> cases ha : p.assigneeId <;>
    simp [filteredNoSearch, hs, ha, List.mem_filter] at ht <;>
    simp_all

theorem mem_list_tasks (db : List Task) (p : ListParams) (t : Task)
    (ht : t ∈ (TaskController.list db p).tasks) :
    t ∈ (if p.search ≠ "" then filteredWithSearch db p else filteredNoSearch db p) := by
  have h1 : t ∈ orderTasks (taskLe (sortFieldOf p.sortBy) (orderDir p.sortOrder))
      (if p.search ≠ "" then filteredWithSearch db p else filteredNoSearch db p) :=
    List.mem_of_mem_drop (List.mem_of_mem_take ht)
  rwa [mem_orderTasks] at h1

/-- Spec-side conjunctive predicate (from the words of the spec: apply all
present filters conjunctively, logical AND): a single pass over the
collection keeping the tasks that satisfy every present filter at once. -/
def specConjunctiveFilter (p : ListParams) (t : Task) : Bool :=
  (match p.assigneeId with
    | some aid => t.assignees.any fun u => u.id == aid
    | none => true) &&
  ((match p.status with
    | some statuses => statuses.contains t.status
    | none => true) &&
   (if p.search = "" then true
    else likeContains t.title p.search || likeContains t.description p.search))

theorem filtered_eq_conj (db : List Task) (p : ListParams) :
    (if p.search ≠ "" then filteredWithSearch db p else filteredNoSearch db p) =
      db.filter fun t => specConjunctiveFilter p t := by
  by_cases hs : p.search = "" <;> cases hst : p.status <;> cases ha : p.assigneeId <;>
    simp [filteredWithSearch, filteredNoSearch, specConjunctiveFilter, hs, hst, ha,
      List.filter_filter]

/-- C3: `list` applies its filters conjunctively: the matched collection
is exactly the single-pass AND of all present filters (so `assigneeId`
combined with `search` yields the intersection), and consequently every
returned task simultaneously matches the search substring against title
or description, has its status in the requested set, and has the
requested assignee id in its assignee set. -/
theorem list_filters_conjunctive (db : List Task) (p : ListParams) :
    ((if p.search ≠ "" then filteredWithSearch db p else filteredNoSearch db p) =
      db.filter fun t => specConjunctiveFilter p t) ∧
    ∀ t, t ∈ (TaskController.list db p).tasks →
      (p.search ≠ "" →
        (likeContains t.title p.search || likeContains t.description p.search) = true) ∧
      (∀ statuses, p.status = some statuses → t.status ∈ statuses) ∧
      (∀ aid, p.assigneeId = some aid → ∃ u ∈ t.assignees, u.id = aid) := by
  refine ⟨filtered_eq_conj db p, ?_⟩
  intro t ht
  have hm := mem_list_tasks db p t ht
  by_cases hsearch : p.search = ""
  · rw [if_neg (by simp [hsearch])] at hm
    have h := mem_filteredNoSearch db p t hm
    exact ⟨fun hcontra => absurd hsearch hcontra, h.1, h.2⟩
  · rw [if_pos hsearch] at hm
    have h := mem_filteredWithSearch db p t hm
    exact ⟨fun _ => h.1, h.2.1, h.2.2⟩

/-- C3 witness data: a task matching search `foo`, status `done` and
assignee `u1`, next to one matching nothing. -/
def taskFoo : Task :=
  ⟨"a", "foo task", "", "done", ⟨"o"⟩, [⟨"u1"⟩], 1⟩

def taskBar : Task :=
  ⟨"b", "bar", "", "todo", ⟨"o"⟩, [], 2⟩

def paramsAllFilters : ListParams :=
  ⟨"foo", some ["done"], some "u1", 1, 10, "createdAt", "DESC"⟩

/-- C3 witness: with all three filters present, the returned task
matches the search, the status set and the assignee filter at once. -/
theorem list_filters_conjunctive_witness :
    (likeContains taskFoo.title "foo" || likeContains taskFoo.description "foo") = true ∧
    taskFoo.status ∈ ["done"] ∧ ∃ u ∈ taskFoo.assignees, u.id = "u1" := by
  have h := (list_filters_conjunctive [taskFoo, taskBar] paramsAllFilters).2 taskFoo (by decide)
  exact ⟨h.1 (by decide), h.2.1 ["done"] rfl, h.2.2 "u1" rfl⟩

theorem ceil_le_mul (t l : Nat) (hl : 0 < l) : t ≤ ((t + l - 1) / l) * l := by
  rcases Nat.lt_or_ge (((t + l - 1) / l) * l) t with h | h
  · exfalso
    have hs : ((t + l - 1) / l + 1) * l = ((t + l - 1) / l) * l + l := by ring
    have h2 : ((t + l - 1) / l + 1) * l ≤ t + l - 1 := by omega
    have h3 := (Nat.le_div_iff_mul_le hl).mpr h2
    omega
  · exact h

theorem ceil_least (t l n : Nat) (hl : 0 < l) (hn : t ≤ n * l) : (t + l - 1) / l ≤ n := by
  have hs : (n + 1) * l = n * l + l := by ring
  have h2 : t + l - 1 < (n + 1) * l := by omega
  have h3 := (Nat.div_lt_iff_lt_mul hl).mpr h2
  omega

/-- C6: `list` reports the number of matching rows before pagination as
`total`; the returned page has `min limit (total - (page-1)*limit)`
items, so a page past the end is empty rather than an error; and
`totalPages` is exactly `ceil (total / limit)` (the least `n` with
`total ≤ n * limit`). -/
theorem list_pagination (db : List Task) (p : ListParams) (hl : 0 < p.limit) :
    (TaskController.list db p).total =
      (if p.search ≠ "" then filteredWithSearch db p else filteredNoSearch db p).length ∧
    (TaskController.list db p).tasks.length =
      min p.limit ((TaskController.list db p).total - (p.page - 1) * p.limit) ∧
    ((TaskController.list db p).total ≤ (p.page - 1) * p.limit →
      (TaskController.list db p).tasks = []) ∧
    (TaskController.list db p).total ≤ (TaskController.list db p).totalPages * p.limit ∧
    (∀ n, (TaskController.list db p).total ≤ n * p.limit →
      (TaskController.list db p).totalPages ≤ n) := by
  have htotal : (TaskController.list db p).total =
      (if p.search ≠ "" then filteredWithSearch db p else filteredNoSearch db p).length := rfl
  have hpages : (TaskController.list db p).totalPages =
      ((TaskController.list db p).total + p.limit - 1) / p.limit := rfl
  have hlen : (TaskController.list db p).tasks.length =
      min p.limit ((TaskController.list db p).total - (p.page - 1) * p.limit) := by
    show (List.take p.limit (List.drop ((p.page - 1) * p.limit)
        (orderTasks (taskLe (sortFieldOf p.sortBy) (orderDir p.sortOrder))
          (if p.search ≠ "" then filteredWithSearch db p else filteredNoSearch db p)))).length =
      min p.limit ((TaskController.list db p).total - (p.page - 1) * p.limit)
    rw [List.length_take, List.length_drop, length_orderTasks]
    rfl
  refine ⟨htotal, hlen, ?_, ?_, ?_⟩
  · intro hle
    have h0 : (TaskController.list db p).tasks.length = 0 := by
      rw [hlen]; omega
    exact List.length_eq_zero.mp h0
  · rw [hpages]
    exact ceil_le_mul _ _ hl
  · intro n hn
    rw [hpages]
    exact ceil_least _ _ _ hl hn

/-- C6 witness data: 25 matching tasks, no filters, pages of 10. -/
def mkTask (i : Nat) : Task :=
  ⟨"", "", "", "todo", ⟨"o"⟩, [], i⟩

def db25 : List Task :=
  (List.range 25).map mkTask

def pageParams (page : Nat) : ListParams :=
  ⟨"", none, none, page, 10, "createdAt", "DESC"⟩

/-- C6 witness: with 25 matching tasks and pages of 10, page 4 is empty
(no error), page 3 holds the remaining 5 items, and `totalPages` is 3. -/
theorem list_pagination_witness :
    (TaskController.list db25 (pageParams 4)).tasks = [] ∧
    (TaskController.list db25 (pageParams 3)).tasks.length = 5 ∧
    (TaskController.list db25 (pageParams 3)).totalPages = 3 := by
  have h4 := list_pagination db25 (pageParams 4) (by decide)
  have h3 := list_pagination db25 (pageParams 3) (by decide)
  refine ⟨h4.2.2.1 (by decide), ?_, by decide⟩
  rw [h3.2.1]
  decide

/-- C10: `list` never rejects sort parameters: an unrecognized `sortBy`
behaves exactly as `createdAt` and an unrecognized `sortOrder` behaves
exactly as `DESC` — the full response is identical, silently. -/
theorem list_sort_fallback (db : List Task) (p : ListParams) :
    (p.sortBy ≠ "title" →
      TaskController.list db p = TaskController.list db
        ⟨p.search, p.status, p.assigneeId, p.page, p.limit, "createdAt", p.sortOrder⟩) ∧
    (p.sortOrder ≠ "ASC" →
      TaskController.list db p = TaskController.list db
        ⟨p.search, p.status, p.assigneeId, p.page, p.limit, p.sortBy, "DESC"⟩) := by
  obtain ⟨s, st, aid, pg, lim, sb, so⟩ := p
  constructor
  · intro hb
    have h1 : sortFieldOf sb = sortFieldOf "createdAt" := by
      rw [sortFieldOf, if_neg hb]
      rfl
    simp only [TaskController.list]
    dsimp only
    rw [h1]
    rfl
  · intro ho
    have h1 : orderDir so = orderDir "DESC" := by
      rw [orderDir, if_neg ho]
      rfl
    simp only [TaskController.list]
    dsimp only
    rw [h1]
    rfl

/-- C10 witness: with `sortBy=bogus` and `sortOrder=bogus`, the response
equals the one for `createdAt` and for `DESC` respectively. -/
theorem list_sort_fallback_witness :
    TaskController.list [taskFoo, taskBar]
        ⟨"", none, none, 1, 10, "bogus", "DESC"⟩ =
      TaskController.list [taskFoo, taskBar]
        ⟨"", none, none, 1, 10, "createdAt", "DESC"⟩ ∧
    TaskController.list [taskFoo, taskBar]
        ⟨"", none, none, 1, 10, "createdAt", "bogus"⟩ =
      TaskController.list [taskFoo, taskBar]
        ⟨"", none, none, 1, 10, "createdAt", "DESC"⟩ :=
  ⟨(list_sort_fallback [taskFoo, taskBar]
      ⟨"", none, none, 1, 10, "bogus", "DESC"⟩).1 (by decide),
   (list_sort_fallback [taskFoo, taskBar]
      ⟨"", none, none, 1, 10, "createdAt", "bogus"⟩).2 (by decide)⟩

/-! ### The update and remove handlers

The handlers are modelled as pure functions from the request pieces they
read (actor context, route parameter, body) and the persistent state to
the HTTP response and the new persistent state. -/

/-- The body accepted by `update` (`UpdateTaskDto`): every field
optional; `none` is JS `undefined` (the key absent). -/
structure UpdateBody where
  title : Option String
  description : Option String
  status : Option String
  assigneeIds : Option (List String)
deriving DecidableEq, Repr

/-- The responses the two mutation handlers can produce. -/
inductive HttpResponse where
  | ok (t : Task)
  | noContent
  | badRequest
  | unauthorized
  | forbidden
  | notFound
deriving DecidableEq, Repr

/-- The persistence collaborator: the task and user collections. -/
structure Db where
  tasks : List Task
  users : List UserRef
deriving DecidableEq, Repr

/-- `taskRepository.findOne({ where: { id: taskId } })` -/
def findTask (tasks : List Task) (id : String) : Option Task :=
  tasks.find? fun t => t.id == id

/-- `userRepository.findBy({ id: In(ids) })` -/
def findUsersByIds (users : List UserRef) (ids : List String) : List UserRef :=
  users.filter fun u => ids.contains u.id

/-- `taskRepository.save(task)`: the row whose id equals the id of the
saved task takes the
new value. -/
def saveTask (tasks : List Task) (t : Task) : List Task :=
  tasks.map fun x => if x.id == t.id then t else x

/-- JS truthiness of an array value: arrays are objects and every object
is truthy, so this is constantly true (it models the JS-level
`if (assigneeIds)` test after the destructuring default `= []`). -/
def jsArrayTruthy (_ : List String) : Bool :=
  true

/-- The field mutations of `update` after the permission check:
`if (x !== undefined) task.x = x` for title, description and status, and
the assignee block `if (assigneeIds) { task.assignees = assigneeIds &&
assigneeIds.length ? findBy(In(assigneeIds)) : [] }` where `assigneeIds`
was destructured with default `[]`. -/
def applyUpdate (users : List UserRef) (body : UpdateBody) (task : Task) : Task :=
  let assigneeIds := body.assigneeIds.getD []
  let t1 := match body.title with
    | some v => { task with title := v }
    | none => task
  let t2 := match body.description with
    | some v => { t1 with description := v }
    | none => t1
  let t3 := match body.status with
    | some v => { t2 with status := v }
    | none => t2
  if jsArrayTruthy assigneeIds then
    { t3 with assignees :=
        if jsArrayTruthy assigneeIds && !assigneeIds.isEmpty then
          findUsersByIds users assigneeIds
        else [] }
  else t3

namespace TaskController

/-- The `update` handler: 401 without an actor, 400 on an empty id, 404
when the task is missing, 403 when `canEditTask` denies, otherwise apply
the field mutations and save. -/
def update (db : Db) (user : Option AuthTokenPayload) (taskId : String)
    (body : UpdateBody) : HttpResponse × Db :=
  match user with
  | none => (.unauthorized, db)
  | some u =>
    if taskId = "" then (.badRequest, db)
    else
      match findTask db.tasks taskId with
      | none => (.notFound, db)
      | some task =>
        if canEditTask u task then
          let updated := applyUpdate db.users body task
          (.ok updated, ⟨saveTask db.tasks updated, db.users⟩)
        else (.forbidden, db)

/-- The `remove` handler: the same guard sequence with `canDeleteTask`,
then a hard delete and 204. -/
def remove (db : Db) (user : Option AuthTokenPayload) (taskId : String) :
    HttpResponse × Db :=
  match user with
  | none => (.unauthorized, db)
  | some u =>
    if taskId = "" then (.badRequest, db)
    else
      match findTask db.tasks taskId with
      | none => (.notFound, db)
      | some task =>
        if canDeleteTask u task then
          (.noContent, ⟨db.tasks.filter fun x => !(x.id == task.id), db.users⟩)
        else (.forbidden, db)

end TaskController

/-- C5: when the permission evaluator denies an edit, `update` answers
403 and the store is returned untouched: no field of any task changes
and no save happens. -/
theorem update_denied_403_no_mutation (db : Db) (u : AuthTokenPayload) (taskId : String)
    (body : UpdateBody) (task : Task) (hid : taskId ≠ "")
    (hfind : findTask db.tasks taskId = some task)
    (hperm : TaskController.canEditTask u task = false) :
    TaskController.update db (some u) taskId body = (.forbidden, db) := by
  simp [TaskController.update, hid, hfind, hperm]

/-- C5 witness data: one task owned by `b`, and actor `a` holding only
the `user` role. -/
def dbOneTask : Db :=
  ⟨[⟨"t1", "A", "B", "todo", ⟨"b"⟩, [⟨"u1"⟩], 0⟩], [⟨"b"⟩, ⟨"u1"⟩, ⟨"a"⟩]⟩

def actorUserA : AuthTokenPayload :=
  ⟨"a", ["user"]⟩

def bodyStatusDone : UpdateBody :=
  ⟨none, none, some "done", none⟩

/-- C5 witness: actor `a` (`user` role) updating the task owned by `b`
gets 403 and
the store is unchanged. -/
theorem update_denied_403_no_mutation_witness :
    TaskController.update dbOneTask (some actorUserA) "t1" bodyStatusDone =
      (.forbidden, dbOneTask) :=
  update_denied_403_no_mutation dbOneTask actorUserA "t1" bodyStatusDone
    ⟨"t1", "A", "B", "todo", ⟨"b"⟩, [⟨"u1"⟩], 0⟩ (by decide) (by decide) (by decide)

/-- C8: for `update` and `remove` alike, an absent actor context yields
401 with no state change (the permission evaluator is unreachable: no
`canEdit`/`canDelete` fact about any actor is consulted); with an actor
and a present-but-unknown task id the answer is 404 with no state
change; and a 403 can only arise once an actor is present and the task
was found — i.e. the permission check runs strictly after both guards. -/
theorem guards_before_permission (db : Db) (taskId : String) (body : UpdateBody) :
    (TaskController.update db none taskId body = (.unauthorized, db) ∧
      TaskController.remove db none taskId = (.unauthorized, db)) ∧
    (∀ u, taskId ≠ "" → findTask db.tasks taskId = none →
      TaskController.update db (some u) taskId body = (.notFound, db) ∧
      TaskController.remove db (some u) taskId = (.notFound, db)) ∧
    (∀ user, (TaskController.update db user taskId body).1 = .forbidden →
      ∃ u task, user = some u ∧ findTask db.tasks taskId = some task ∧
        TaskController.canEditTask u task = false) ∧
    (∀ user, (TaskController.remove db user taskId).1 = .forbidden →
      ∃ u task, user = some u ∧ findTask db.tasks taskId = some task ∧
        TaskController.canDeleteTask u task = false) := by
  refine ⟨⟨rfl, rfl⟩, ?_, ?_, ?_⟩
  · intro u hid hfind
    constructor <;> simp [TaskController.update, TaskController.remove, hid, hfind]
  · intro user hf
    match user with
    | none => simp [TaskController.update] at hf
    | some u =>
      by_cases hid : taskId = ""
      · simp [TaskController.update, hid] at hf
      · cases hfind : findTask db.tasks taskId with
        | none => simp [TaskController.update, hid, hfind] at hf
        | some task =>
          cases hp : TaskController.canEditTask u task with
          | true => simp [TaskController.update, hid, hfind, hp] at hf
          | false => exact ⟨u, task, rfl, rfl, hp⟩
  · intro user hf
    match user with
    | none => simp [TaskController.remove] at hf
    | some u =>
      by_cases hid : taskId = ""
      · simp [TaskController.remove, hid] at hf
      · cases hfind : findTask db.tasks taskId with
        | none => simp [TaskController.remove, hid, hfind] at hf
        | some task =>
          cases hp : TaskController.canDeleteTask u task with
          | true => simp [TaskController.remove, hid, hfind, hp] at hf
          | false => exact ⟨u, task, rfl, rfl, hp⟩

/-- C8 witness: on a concrete store, an unauthenticated update and
remove answer 401 without touching the store, and an authenticated
update and remove of the unknown id `zz` answer 404 without touching the
store. -/
theorem guards_before_permission_witness :
    (TaskController.update dbOneTask none "t1" bodyStatusDone =
        (.unauthorized, dbOneTask) ∧
      TaskController.remove dbOneTask none "t1" = (.unauthorized, dbOneTask)) ∧
    (TaskController.update dbOneTask (some actorUserA) "zz" bodyStatusDone =
        (.notFound, dbOneTask) ∧
      TaskController.remove dbOneTask (some actorUserA) "zz" = (.notFound, dbOneTask)) :=
  ⟨(guards_before_permission dbOneTask "t1" bodyStatusDone).1,
   (guards_before_permission dbOneTask "zz" bodyStatusDone).2.1 actorUserA
     (by decide) (by decide)⟩

/-- C4 failing input: a task with a non-empty assignee set, updated by
an admin with a body that provides only `status`. -/
def taskAssigned : Task :=
  ⟨"t2", "A", "B", "todo", ⟨"b"⟩, [⟨"u1"⟩], 0⟩

def dbAssigned : Db :=
  ⟨[taskAssigned], [⟨"b"⟩, ⟨"u1"⟩]⟩

def actorAdmin : AuthTokenPayload :=
  ⟨"adm", ["admin"]⟩

/-- C4: the update body `{status:"done"}` (no `assigneeIds` key) on a
task with assignees `[u1]` keeps the unsent `title` and `description`
and sets `status`, but clears the assignee set to `[]` instead of
leaving it untouched: the destructuring default `assigneeIds = []`
makes the `if (assigneeIds)` guard always pass, so absent `assigneeIds`
is indistinguishable from an explicit empty list. -/
theorem update_absent_assigneeIds_clears_assignees :
    (TaskController.update dbAssigned (some actorAdmin) "t2" bodyStatusDone).1 =
      .ok ⟨"t2", "A", "B", "done", ⟨"b"⟩, [], 0⟩ ∧
    taskAssigned.assignees = [⟨"u1"⟩] := by
  decide
